import Mathlib

/-!
Verification of the State-pattern example (`Context`, `State`,
`ConcreteStateA`, `ConcreteStateB` and the client code) and of the Facade
example (`Facade`, `Subsystem1`, `Subsystem2`) of this repository.

The State example is embedded shallowly.  A run-time configuration holds
- a heap of all `State` objects allocated so far (allocation order gives
  each object its id, so `new ConcreteStateX()` appends to the heap);
- the single `Context`'s `state` field, as `Option` of an object id
  (`none` models the field before its first assignment);
- the list of lines printed so far by `console.log`.
Only one `Context` instance exists at a time in the reference scenario, so
a `State`'s back-reference (`protected context: Context`) is embedded as
`Option Unit`: `some ()` means the field was set (necessarily to the one
Context), `none` means it is still `undefined`.
Operations that would throw a `TypeError` in TypeScript (dereferencing an
`undefined` field) return `none`.
-/

/-- The two concrete `State` subclasses: `ConcreteStateA` and
`ConcreteStateB`. -/
inductive Variant : Type
  | A : Variant
  | B : Variant
deriving DecidableEq, Repr

/-- The value of `(<any>state).constructor.name` used by
`Context.transitionTo` when logging. -/
def className : Variant → String
  | Variant.A => "ConcreteStateA"
  | Variant.B => "ConcreteStateB"

/-- A `State` object on the heap: its dynamic class and its
`protected context` back-reference (`none` = still `undefined`,
`some ()` = set, to the single Context). -/
structure StateObj : Type where
  variant : Variant
  context : Option Unit
deriving DecidableEq, Repr

/-- A run-time configuration: the heap of every `State` object allocated so
far (ids are list indices, in allocation order), the Context's `state`
field (`none` = not yet assigned) and the console output so far. -/
structure Config : Type where
  heap : List StateObj
  state : Option Nat
  log : List String
deriving DecidableEq, Repr

/-- Replace the element at index `i` by `f` of it (other positions and
out-of-range indices are untouched). -/
def modifyAt {α : Type} : List α → Nat → (α → α) → List α
  | [], _, _ => []
  | x :: xs, 0, f => f x :: xs
  | x :: xs, n + 1, f => x :: modifyAt xs n f

/-- Append lines to the console output (`console.log` calls). -/
def Config.addLog (cfg : Config) (lines : List String) : Config :=
  { cfg with log := cfg.log ++ lines }

/-- Allocate a fresh `State` object (`new ConcreteStateX()`): its
`context` field starts out `undefined`.  Returns the new configuration and
the new object's id. -/
def Config.newState (cfg : Config) (v : Variant) : Config × Nat :=
  ({ cfg with heap := cfg.heap ++ [⟨v, none⟩] }, cfg.heap.length)

/-- `Context.transitionTo(state)`: logs the transition line, assigns
`this.state`, then calls `state.setContext(this)` which sets the new
state's back-reference.  The argument is the id of an actual `State`
object; a dangling id (impossible in the typed source, an artifact of the
id encoding) yields `none`. -/
def Config.transitionTo (cfg : Config) (id : Nat) : Option Config :=
  match cfg.heap[id]? with
  | none => none
  | some obj =>
      some { heap := modifyAt cfg.heap id (fun o => { o with context := some () }),
             state := some id,
             log := cfg.log ++ ["Context: Transition to " ++ className obj.variant ++ "."] }

/-- `ConcreteStateA.handle1` / `ConcreteStateB.handle1`, dispatched on the
dynamic class of the object `self`.  Variant A logs two lines and then
calls `this.context.transitionTo(new ConcreteStateB())` — dereferencing
`this.context` throws (`none`) when the back-reference is still unset;
variant B only logs. -/
def handle1 (cfg : Config) (self : Nat) : Option Config :=
  match cfg.heap[self]? with
  | none => none
  | some obj =>
      match obj.variant with
      | Variant.A =>
          let cfg1 := cfg.addLog ["ConcreteStateA handles request1.",
            "ConcreteStateA wants to change the state of the context."]
          match obj.context with
          | none => none
          | some () =>
              let alloc := cfg1.newState Variant.B
              alloc.1.transitionTo alloc.2
      | Variant.B => some (cfg.addLog ["ConcreteStateB handles request1."])

/-- `ConcreteStateA.handle2` / `ConcreteStateB.handle2`: variant A only
logs; variant B logs two lines and then calls
`this.context.transitionTo(new ConcreteStateA())`. -/
def handle2 (cfg : Config) (self : Nat) : Option Config :=
  match cfg.heap[self]? with
  | none => none
  | some obj =>
      match obj.variant with
      | Variant.A => some (cfg.addLog ["ConcreteStateA handles request2."])
      | Variant.B =>
          let cfg1 := cfg.addLog ["ConcreteStateB handles request2.",
            "ConcreteStateB wants to change the state of the context."]
          match obj.context with
          | none => none
          | some () =>
              let alloc := cfg1.newState Variant.A
              alloc.1.transitionTo alloc.2

/-- `Context.request1()`: `this.state.handle1()`; dereferencing the
`state` field before it is assigned throws (`none`). -/
def Config.request1 (cfg : Config) : Option Config :=
  match cfg.state with
  | none => none
  | some id => handle1 cfg id

/-- `Context.request2()`: `this.state.handle2()`. -/
def Config.request2 (cfg : Config) : Option Config :=
  match cfg.state with
  | none => none
  | some id => handle2 cfg id

/-- `new Context(state)`: the `state` field starts unassigned and the
constructor body runs `this.transitionTo(state)`.  `heap` holds the
`State` objects already allocated by the caller; `id` is the argument. -/
def newContext (heap : List StateObj) (id : Nat) : Option Config :=
  Config.transitionTo { heap := heap, state := none, log := [] } id

/-- A request made by the client: `request1()` or `request2()`. -/
inductive Req : Type
  | one : Req
  | two : Req
deriving DecidableEq, Repr

/-- Dispatch one client request on the Context. -/
def Config.request (cfg : Config) : Req → Option Config
  | Req.one => cfg.request1
  | Req.two => cfg.request2

/-- Run a sequence of client requests; the first thrown error aborts the
run (`none`). -/
def run : Config → List Req → Option Config
  | cfg, [] => some cfg
  | cfg, r :: rs =>
      match cfg.request r with
      | none => none
      | some cfg2 => run cfg2 rs

/-- The dynamic class of the `State` object currently referenced by the
Context's `state` field. -/
def Config.currentVariant (cfg : Config) : Option Variant :=
  match cfg.state with
  | none => none
  | some id =>
      match cfg.heap[id]? with
      | none => none
      | some obj => some obj.variant

/-- Well-formedness: the Context's `state` field refers to an actual heap
object whose back-reference is set.  This is established by the
constructor and preserved by every operation. -/
def Config.Wf (cfg : Config) : Prop :=
  ∃ id obj, cfg.state = some id ∧ cfg.heap[id]? = some obj ∧ obj.context = some ()

/-- The client code of the example:
`const context = new Context(new ConcreteStateA());` followed by
`context.request1(); context.request2();`. -/
def clientRun : Option Config :=
  match newContext [⟨Variant.A, none⟩] 0 with
  | none => none
  | some cfg0 => run cfg0 [Req.one, Req.two]

/-- The configurations a Context can be in under normal use: just
constructed, or reached from a reachable one by `request1`, `request2` or
`transitionTo` on an actual `State` object. -/
inductive Reachable : Config → Prop
  | init (heap : List StateObj) (id : Nat) (cfg : Config) :
      newContext heap id = some cfg → Reachable cfg
  | step1 {cfg cfg' : Config} : Reachable cfg → cfg.request1 = some cfg' → Reachable cfg'
  | step2 {cfg cfg' : Config} : Reachable cfg → cfg.request2 = some cfg' → Reachable cfg'
  | stepT {cfg cfg' : Config} (id : Nat) :
      Reachable cfg → cfg.transitionTo id = some cfg' → Reachable cfg'

/-- Modelled from the spec: the two-state machine of section 4.2 —
`A --(requestOne)--> B`, `B --(requestTwo)--> A`, and the non-trigger call
on each variant leaves the state unchanged. -/
def specStep : Variant → Req → Variant
  | Variant.A, Req.one => Variant.B
  | Variant.A, Req.two => Variant.A
  | Variant.B, Req.one => Variant.B
  | Variant.B, Req.two => Variant.A

/-- The request that does not trigger a transition out of a variant. -/
def nonTrigger : Variant → Req
  | Variant.A => Req.two
  | Variant.B => Req.one

/-- The request whose handler triggers a transition out of a variant. -/
def trigger : Variant → Req
  | Variant.A => Req.one
  | Variant.B => Req.two

/-- The variant a triggered transition installs. -/
def otherVariant : Variant → Variant
  | Variant.A => Variant.B
  | Variant.B => Variant.A

/-- A client-visible operation on the Context: one of the two requests, or
a direct `transitionTo(new ConcreteStateX())` call as the client code of
this codebase always makes it (with a freshly constructed state). -/
inductive Op : Type
  | one : Op
  | two : Op
  | transNew : Variant → Op
deriving DecidableEq, Repr

/-- Perform one client operation. -/
def Config.opStep (cfg : Config) : Op → Option Config
  | Op.one => cfg.request1
  | Op.two => cfg.request2
  | Op.transNew v =>
      let alloc := cfg.newState v
      alloc.1.transitionTo alloc.2

/-- Run a sequence of client operations. -/
def runOps : Config → List Op → Option Config
  | cfg, [] => some cfg
  | cfg, o :: os =>
      match cfg.opStep o with
      | none => none
      | some cfg2 => runOps cfg2 os

/-- The configuration right after `new Context(new ConcreteStateA())`. -/
def cfgInit : Config :=
  { heap := [⟨Variant.A, some ()⟩],
    state := some 0,
    log := ["Context: Transition to ConcreteStateA."] }

/-- The configuration after `new Context(new ConcreteStateA())` followed by
`context.request1()`: the original `ConcreteStateA` object is still on the
heap with its back-reference set, but the Context now holds the fresh
`ConcreteStateB` object. -/
def cfgAfterOne : Config :=
  { heap := [⟨Variant.A, some ()⟩, ⟨Variant.B, some ()⟩],
    state := some 1,
    log := ["Context: Transition to ConcreteStateA.",
      "ConcreteStateA handles request1.",
      "ConcreteStateA wants to change the state of the context.",
      "Context: Transition to ConcreteStateB."] }

theorem getElem?_concat_self {α : Type} (l : List α) (a : α) :
    (l ++ [a])[l.length]? = some a := by
  induction l with
  | nil => rfl
  | cons x xs ih => simp [ih]

theorem getElem?_length_self {α : Type} (l : List α) : l[l.length]? = none := by
  induction l with
  | nil => rfl
  | cons x xs ih => simp [ih]

theorem modifyAt_getElem?_self {α : Type} (l : List α) (i : Nat) (f : α → α) :
    (modifyAt l i f)[i]? = (l[i]?).map f := by
  induction l generalizing i with
  | nil => cases i <;> rfl
  | cons x xs ih =>
    cases i with
    | zero => simp [modifyAt]
    | succ n => simpa [modifyAt] using ih n

theorem modifyAt_getElem?_ne {α : Type} (l : List α) (i j : Nat) (f : α → α)
    (h : i ≠ j) : (modifyAt l i f)[j]? = l[j]? := by
  induction l generalizing i j with
  | nil => cases i <;> rfl
  | cons x xs ih =>
    cases i with
    | zero =>
      cases j with
      | zero => exact absurd rfl h
      | succ m => simp [modifyAt]
    | succ n =>
      cases j with
      | zero => simp [modifyAt]
      | succ m => simpa [modifyAt] using ih n m (by omega)

theorem modifyAt_concat {α : Type} (l : List α) (a : α) (f : α → α) :
    modifyAt (l ++ [a]) l.length f = l ++ [f a] := by
  induction l with
  | nil => rfl
  | cons x xs ih => simp [modifyAt, ih]

theorem transitionTo_eq (cfg : Config) (id : Nat) (obj : StateObj)
    (hh : cfg.heap[id]? = some obj) :
    cfg.transitionTo id = some
      { heap := modifyAt cfg.heap id (fun o => { o with context := some () }),
        state := some id,
        log := cfg.log ++ ["Context: Transition to " ++ className obj.variant ++ "."] } := by
  simp [Config.transitionTo, hh]

theorem transitionTo_wf (cfg : Config) (id : Nat) (cfg' : Config)
    (h : cfg.transitionTo id = some cfg') : cfg'.Wf := by
  revert h
  unfold Config.transitionTo
  cases hh : cfg.heap[id]? with
  | none => intro h; cases h
  | some obj =>
    intro h
    cases h
    exact ⟨id, ⟨obj.variant, some ()⟩, rfl,
      by rw [modifyAt_getElem?_self, hh]; rfl, rfl⟩

theorem request1_A (cfg : Config) (id : Nat) (obj : StateObj)
    (hs : cfg.state = some id) (hh : cfg.heap[id]? = some obj)
    (hv : obj.variant = Variant.A) (hc : obj.context = some ()) :
    cfg.request1 = some
      { heap := cfg.heap ++ [⟨Variant.B, some ()⟩],
        state := some cfg.heap.length,
        log := cfg.log ++ ["ConcreteStateA handles request1.",
          "ConcreteStateA wants to change the state of the context.",
          "Context: Transition to ConcreteStateB."] } := by
  simp [Config.request1, hs, handle1, hh, hv, hc, Config.addLog, Config.newState,
    Config.transitionTo, getElem?_concat_self, modifyAt_concat, className]

theorem request1_B (cfg : Config) (id : Nat) (obj : StateObj)
    (hs : cfg.state = some id) (hh : cfg.heap[id]? = some obj)
    (hv : obj.variant = Variant.B) :
    cfg.request1 = some
      { heap := cfg.heap,
        state := some id,
        log := cfg.log ++ ["ConcreteStateB handles request1."] } := by
  simp [Config.request1, hs, handle1, hh, hv, Config.addLog]

theorem request2_A (cfg : Config) (id : Nat) (obj : StateObj)
    (hs : cfg.state = some id) (hh : cfg.heap[id]? = some obj)
    (hv : obj.variant = Variant.A) :
    cfg.request2 = some
      { heap := cfg.heap,
        state := some id,
        log := cfg.log ++ ["ConcreteStateA handles request2."] } := by
  simp [Config.request2, hs, handle2, hh, hv, Config.addLog]

theorem request2_B (cfg : Config) (id : Nat) (obj : StateObj)
    (hs : cfg.state = some id) (hh : cfg.heap[id]? = some obj)
    (hv : obj.variant = Variant.B) (hc : obj.context = some ()) :
    cfg.request2 = some
      { heap := cfg.heap ++ [⟨Variant.A, some ()⟩],
        state := some cfg.heap.length,
        log := cfg.log ++ ["ConcreteStateB handles request2.",
          "ConcreteStateB wants to change the state of the context.",
          "Context: Transition to ConcreteStateA."] } := by
  simp [Config.request2, hs, handle2, hh, hv, hc, Config.addLog, Config.newState,
    Config.transitionTo, getElem?_concat_self, modifyAt_concat, className]

theorem request_step (cfg : Config) (id : Nat) (obj : StateObj) (r : Req)
    (hs : cfg.state = some id) (hh : cfg.heap[id]? = some obj)
    (hc : obj.context = some ()) :
    ∃ cfg', cfg.request r = some cfg' ∧ cfg'.Wf ∧
      cfg'.currentVariant = some (specStep obj.variant r) := by
  cases r with
  | one =>
    cases hv : obj.variant with
    | A =>
      refine ⟨_, request1_A cfg id obj hs hh hv hc, ?_, ?_⟩
      · exact ⟨cfg.heap.length, ⟨Variant.B, some ()⟩, rfl, getElem?_concat_self _ _, rfl⟩
      · simp [Config.currentVariant, getElem?_concat_self, hv, specStep]
    | B =>
      refine ⟨_, request1_B cfg id obj hs hh hv, ?_, ?_⟩
      · exact ⟨id, obj, rfl, hh, hc⟩
      · simp [Config.currentVariant, hh, hv, specStep]
  | two =>
    cases hv : obj.variant with
    | A =>
      refine ⟨_, request2_A cfg id obj hs hh hv, ?_, ?_⟩
      · exact ⟨id, obj, rfl, hh, hc⟩
      · simp [Config.currentVariant, hh, hv, specStep]
    | B =>
      refine ⟨_, request2_B cfg id obj hs hh hv hc, ?_, ?_⟩
      · exact ⟨cfg.heap.length, ⟨Variant.A, some ()⟩, rfl, getElem?_concat_self _ _, rfl⟩
      · simp [Config.currentVariant, getElem?_concat_self, hv, specStep]

theorem wf_currentVariant (cfg : Config) (id : Nat) (obj : StateObj)
    (hs : cfg.state = some id) (hh : cfg.heap[id]? = some obj) :
    cfg.currentVariant = some obj.variant := by
  simp [Config.currentVariant, hs, hh]

theorem run_spec (reqs : List Req) (cfg : Config) (v : Variant)
    (hw : cfg.Wf) (hv : cfg.currentVariant = some v) :
    ∃ cfg', run cfg reqs = some cfg' ∧ cfg'.Wf ∧
      cfg'.currentVariant = some (reqs.foldl specStep v) := by
  induction reqs generalizing cfg v with
  | nil => exact ⟨cfg, rfl, hw, hv⟩
  | cons r rs ih =>
    obtain ⟨id, obj, hs, hh, hc⟩ := hw
    have hcv := wf_currentVariant cfg id obj hs hh
    rw [hcv] at hv
    obtain ⟨v, rfl⟩ : obj.variant = v := Option.some.inj hv
    obtain ⟨cfg1, hstep, hw1, hv1⟩ := request_step cfg id obj r hs hh hc
    obtain ⟨cfg2, hrun, hw2, hv2⟩ := ih cfg1 (specStep obj.variant r) hw1 hv1
    exact ⟨cfg2, by simp [run, hstep, hrun], hw2, hv2⟩

theorem opStep_wf (cfg : Config) (o : Op) (hw : cfg.Wf) :
    ∃ cfg', cfg.opStep o = some cfg' ∧ cfg'.Wf := by
  obtain ⟨id, obj, hs, hh, hc⟩ := hw
  cases o with
  | one =>
    obtain ⟨cfg', h1, h2, _⟩ := request_step cfg id obj Req.one hs hh hc
    exact ⟨cfg', h1, h2⟩
  | two =>
    obtain ⟨cfg', h1, h2, _⟩ := request_step cfg id obj Req.two hs hh hc
    exact ⟨cfg', h1, h2⟩
  | transNew v =>
    have hlook : ((cfg.newState v).1).heap[(cfg.newState v).2]? = some ⟨v, none⟩ := by
      simp [Config.newState, getElem?_concat_self]
    have ht := transitionTo_eq (cfg.newState v).1 (cfg.newState v).2 ⟨v, none⟩ hlook
    exact ⟨_, ht, transitionTo_wf _ _ _ ht⟩

theorem runOps_wf (ops : List Op) (cfg : Config) (hw : cfg.Wf) :
    ∃ cfg', runOps cfg ops = some cfg' ∧ cfg'.Wf := by
  induction ops generalizing cfg with
  | nil => exact ⟨cfg, rfl, hw⟩
  | cons o os ih =>
    obtain ⟨cfg1, h1, hw1⟩ := opStep_wf cfg o hw
    obtain ⟨cfg2, h2, hw2⟩ := ih cfg1 hw1
    exact ⟨cfg2, by simp [runOps, h1, h2], hw2⟩

theorem reachable_wf (cfg : Config) (h : Reachable cfg) : cfg.Wf := by
  induction h with
  | init heap id cfg h => exact transitionTo_wf _ id _ h
  | @step1 cfg cfg' hr h ih =>
    obtain ⟨id, obj, hs, hh, hc⟩ := ih
    obtain ⟨cfg'', h2, hw, _⟩ := request_step cfg id obj Req.one hs hh hc
    have h2' : cfg.request1 = some cfg'' := h2
    rw [h] at h2'
    exact (Option.some.inj h2') ▸ hw
  | @step2 cfg cfg' hr h ih =>
    obtain ⟨id, obj, hs, hh, hc⟩ := ih
    obtain ⟨cfg'', h2, hw, _⟩ := request_step cfg id obj Req.two hs hh hc
    have h2' : cfg.request2 = some cfg'' := h2
    rw [h] at h2'
    exact (Option.some.inj h2') ▸ hw
  | @stepT cfg cfg' id hr h ih => exact transitionTo_wf _ id _ h

theorem foldl_specStep_nonTrigger (n : Nat) (v : Variant) :
    (List.replicate n (nonTrigger v)).foldl specStep v = v := by
  induction n with
  | zero => rfl
  | succ m ih =>
    have hstep : specStep v (nonTrigger v) = v := by cases v <;> rfl
    simp [List.replicate_succ, List.foldl, hstep, ih]

/-- Claim C1: on a Context constructed with a `ConcreteStateA` object,
every sequence of `request1`/`request2` calls succeeds and drives the
active state variant exactly as the spec's two-state machine (`specStep`)
prescribes: `request1` on variant A installs B, `request2` on variant B
installs A, and the non-trigger call on each variant leaves the variant
unchanged; no other transitions ever occur. -/
theorem state_machine_refinement (heap : List StateObj) (id : Nat) (obj : StateObj)
    (hh : heap[id]? = some obj) (hA : obj.variant = Variant.A) (reqs : List Req) :
    ∃ cfg0 cfgN, newContext heap id = some cfg0 ∧ run cfg0 reqs = some cfgN ∧
      cfgN.currentVariant = some (reqs.foldl specStep Variant.A) := by
  have ht := transitionTo_eq { heap := heap, state := none, log := [] } id obj hh
  have hw0 := transitionTo_wf { heap := heap, state := none, log := [] } id _ ht
  have hv0 : Config.currentVariant
      { heap := modifyAt heap id (fun o => { o with context := some () }),
        state := some id,
        log := [] ++ ["Context: Transition to " ++ className obj.variant ++ "."] } =
      some Variant.A := by
    simp [Config.currentVariant, modifyAt_getElem?_self, hh, hA]
  obtain ⟨cfgN, hrun, _, hvN⟩ := run_spec reqs _ Variant.A hw0 hv0
  exact ⟨_, cfgN, ht, hrun, hvN⟩

/-- Witness for C1 at a concrete input: the client's own construction
(`new Context(new ConcreteStateA())`) and the request sequence
`[request1, request2]`. -/
theorem state_machine_refinement_witness :
    (([⟨Variant.A, none⟩] : List StateObj)[0]? = some ⟨Variant.A, none⟩) ∧
    (StateObj.variant ⟨Variant.A, none⟩ = Variant.A) ∧
    ∃ cfg0 cfgN, newContext [⟨Variant.A, none⟩] 0 = some cfg0 ∧
      run cfg0 [Req.one, Req.two] = some cfgN ∧
      cfgN.currentVariant = some ([Req.one, Req.two].foldl specStep Variant.A) :=
  ⟨rfl, rfl,
    state_machine_refinement [⟨Variant.A, none⟩] 0 ⟨Variant.A, none⟩ rfl rfl
      [Req.one, Req.two]⟩

/-- Claim C2: the client run — `new Context(new ConcreteStateA())`, then
`request1()`, then `request2()` — prints exactly the seven trace lines, in
order, with nothing else interleaved. -/
theorem client_trace_exact :
    Option.map Config.log clientRun = some
      ["Context: Transition to ConcreteStateA.",
        "ConcreteStateA handles request1.",
        "ConcreteStateA wants to change the state of the context.",
        "Context: Transition to ConcreteStateB.",
        "ConcreteStateB handles request2.",
        "ConcreteStateB wants to change the state of the context.",
        "Context: Transition to ConcreteStateA."] := by decide

/-- Claim C3: on any well-formed Context whose active variant is A,
`request1()` followed by `request2()` succeeds and brings the active
variant back to A. -/
theorem round_trip_A (cfg : Config) (hw : cfg.Wf)
    (hv : cfg.currentVariant = some Variant.A) :
    ∃ cfg1 cfg2, cfg.request1 = some cfg1 ∧ cfg1.request2 = some cfg2 ∧
      cfg2.currentVariant = some Variant.A := by
  obtain ⟨id, obj, hs, hh, hc⟩ := hw
  have hA : obj.variant = Variant.A := by
    have hcv := wf_currentVariant cfg id obj hs hh
    rw [hcv] at hv
    exact Option.some.inj hv
  obtain ⟨cfg1, h1, hw1, hv1⟩ := request_step cfg id obj Req.one hs hh hc
  obtain ⟨id1, obj1, hs1, hh1, hc1⟩ := hw1
  have hB : obj1.variant = Variant.B := by
    have hcv1 := wf_currentVariant cfg1 id1 obj1 hs1 hh1
    rw [hcv1, hA] at hv1
    exact Option.some.inj hv1
  obtain ⟨cfg2, h2, hw2, hv2⟩ := request_step cfg1 id1 obj1 Req.two hs1 hh1 hc1
  rw [hB] at hv2
  exact ⟨cfg1, cfg2, h1, h2, hv2⟩

/-- Witness for C3 at the freshly constructed Context `cfgInit`. -/
theorem round_trip_A_witness :
    cfgInit.Wf ∧ cfgInit.currentVariant = some Variant.A ∧
    ∃ cfg1 cfg2, cfgInit.request1 = some cfg1 ∧ cfg1.request2 = some cfg2 ∧
      cfg2.currentVariant = some Variant.A :=
  have hw : cfgInit.Wf := ⟨0, ⟨Variant.A, some ()⟩, rfl, rfl, rfl⟩
  ⟨hw, rfl, round_trip_A cfgInit hw rfl⟩

/-- Claim C4: on any well-formed Context of active variant `v`, repeating
the non-triggering request (`request2` on A, `request1` on B) any number
of times succeeds and never changes the active variant. -/
theorem non_trigger_no_change (n : Nat) (cfg : Config) (v : Variant)
    (hw : cfg.Wf) (hv : cfg.currentVariant = some v) :
    ∃ cfg', run cfg (List.replicate n (nonTrigger v)) = some cfg' ∧
      cfg'.currentVariant = some v := by
  obtain ⟨cfg', h1, _, h2⟩ := run_spec (List.replicate n (nonTrigger v)) cfg v hw hv
  rw [foldl_specStep_nonTrigger] at h2
  exact ⟨cfg', h1, h2⟩

/-- Witness for C4: three non-triggering requests on the freshly
constructed Context. -/
theorem non_trigger_no_change_witness :
    cfgInit.Wf ∧ cfgInit.currentVariant = some Variant.A ∧
    ∃ cfg', run cfgInit (List.replicate 3 (nonTrigger Variant.A)) = some cfg' ∧
      cfg'.currentVariant = some Variant.A :=
  have hw : cfgInit.Wf := ⟨0, ⟨Variant.A, some ()⟩, rfl, rfl, rfl⟩
  ⟨hw, rfl, non_trigger_no_change 3 cfgInit Variant.A hw rfl⟩

/-- Claim C5: for every Context reachable under normal use (constructed
with a State, then operated through `request1`, `request2` and
`transitionTo`), the `state` field is never null/unset. -/
theorem state_never_unset (cfg : Config) (h : Reachable cfg) :
    cfg.state.isSome = true := by
  obtain ⟨id, obj, hs, hh, hc⟩ := reachable_wf cfg h
  simp [hs]

/-- Witness for C5 at the freshly constructed Context `cfgInit`. -/
theorem state_never_unset_witness :
    Reachable cfgInit ∧ cfgInit.state.isSome = true :=
  have hr : Reachable cfgInit := Reachable.init [⟨Variant.A, none⟩] 0 cfgInit rfl
  ⟨hr, state_never_unset cfgInit hr⟩

/-- Counterexample to claim C6 as stated: after the client constructs the
Context with a `ConcreteStateA` object and calls `request1()`, the
original `ConcreteStateA` object (id 0) still has its back-reference set,
yet the Context's `state` field now refers to the fresh `ConcreteStateB`
object (id 1) — a dropped State keeps a stale back-reference. -/
theorem backref_claim_counterexample :
    ¬ (∀ cfg : Config, Reachable cfg → ∀ id obj,
        cfg.heap[id]? = some obj → obj.context = some () →
        cfg.state = some id) := by
  intro h
  have hr0 : Reachable cfgInit := Reachable.init [⟨Variant.A, none⟩] 0 cfgInit rfl
  have hstep : cfgInit.request1 = some cfgAfterOne := by decide
  have hr1 : Reachable cfgAfterOne := Reachable.step1 hr0 hstep
  have hbad := h cfgAfterOne hr1 0 ⟨Variant.A, some ()⟩ rfl rfl
  exact absurd hbad (by decide)

/-- Claim C6 as amended: in every reachable configuration the State
currently owned by the Context has its back-reference set — and, there
being a single Context, set to the owning Context; only a dropped State
may retain a stale back-reference. -/
theorem backref_points_to_owner (cfg : Config) (h : Reachable cfg) :
    ∃ id obj, cfg.state = some id ∧ cfg.heap[id]? = some obj ∧
      obj.context = some () :=
  reachable_wf cfg h

/-- Witness for the amended C6 at the configuration reached after
construction and one `request1()`. -/
theorem backref_points_to_owner_witness :
    Reachable cfgAfterOne ∧
    ∃ id obj, cfgAfterOne.state = some id ∧ cfgAfterOne.heap[id]? = some obj ∧
      obj.context = some () :=
  have hr : Reachable cfgAfterOne :=
    Reachable.step1 (Reachable.init [⟨Variant.A, none⟩] 0 cfgInit rfl) (by decide)
  ⟨hr, backref_points_to_owner cfgAfterOne hr⟩

/-- Claim C7: `transitionTo` accepts any actual State object `obj` (any
variant, no validation): afterwards, the Context's `state` field refers to
it, its back-reference is set to the Context, exactly the transition line
was printed, the previous State is no longer referenced by the Context,
and no other heap object was touched (dropped with no cleanup hook). -/
theorem transitionTo_contract (cfg : Config) (id : Nat) (obj : StateObj)
    (hh : cfg.heap[id]? = some obj) :
    ∃ cfg', cfg.transitionTo id = some cfg' ∧
      cfg'.state = some id ∧
      cfg'.heap[id]? = some ⟨obj.variant, some ()⟩ ∧
      cfg'.log = cfg.log ++ ["Context: Transition to " ++ className obj.variant ++ "."] ∧
      (∀ j, j ≠ id → cfg'.heap[j]? = cfg.heap[j]?) ∧
      (∀ oldId, cfg.state = some oldId → oldId ≠ id → cfg'.state ≠ some oldId) := by
  refine ⟨_, transitionTo_eq cfg id obj hh, rfl, ?_, rfl, ?_, ?_⟩
  · rw [modifyAt_getElem?_self, hh]
    rfl
  · intro j hj
    exact modifyAt_getElem?_ne cfg.heap id j _ (fun he => hj he.symm)
  · intro oldId _ hne hcontra
    exact hne (Option.some.inj hcontra).symm

/-- Witness for C7: transition `cfgInit` to its own current State object
(id 0, a `ConcreteStateA`). -/
theorem transitionTo_contract_witness :
    cfgInit.heap[0]? = some ⟨Variant.A, some ()⟩ ∧
    ∃ cfg', cfgInit.transitionTo 0 = some cfg' ∧
      cfg'.state = some 0 ∧
      cfg'.heap[0]? = some ⟨Variant.A, some ()⟩ ∧
      cfg'.log = cfgInit.log ++
        ["Context: Transition to " ++ className Variant.A ++ "."] ∧
      (∀ j, j ≠ 0 → cfg'.heap[j]? = cfgInit.heap[j]?) ∧
      (∀ oldId, cfgInit.state = some oldId → oldId ≠ 0 → cfg'.state ≠ some oldId) :=
  ⟨rfl, transitionTo_contract cfgInit 0 ⟨Variant.A, some ()⟩ rfl⟩

/-- Claim C8: on a well-formed Context, the triggering request
(`request1` on variant A, `request2` on variant B) installs a freshly
constructed State: the id it passes to `transitionTo` was not allocated
before the call (`cfg.heap[cfg.heap.length]? = none`), carries the other
variant, and differs from every previously allocated State — so no
previously held State is ever reinstalled. -/
theorem trigger_installs_fresh (cfg : Config) (id : Nat) (obj : StateObj)
    (hs : cfg.state = some id) (hh : cfg.heap[id]? = some obj)
    (hc : obj.context = some ()) :
    cfg.heap[cfg.heap.length]? = none ∧
    ∃ cfg', cfg.request (trigger obj.variant) = some cfg' ∧
      cfg'.state = some cfg.heap.length ∧
      cfg'.heap[cfg.heap.length]? = some ⟨otherVariant obj.variant, some ()⟩ ∧
      ∀ j, j < cfg.heap.length → cfg'.state ≠ some j := by
  refine ⟨getElem?_length_self _, ?_⟩
  cases hv : obj.variant with
  | A =>
    refine ⟨_, request1_A cfg id obj hs hh hv hc, rfl, ?_, ?_⟩
    · exact getElem?_concat_self _ _
    · intro j hj hcontra
      have := Option.some.inj hcontra
      omega
  | B =>
    refine ⟨_, request2_B cfg id obj hs hh hv hc, rfl, ?_, ?_⟩
    · exact getElem?_concat_self _ _
    · intro j hj hcontra
      have := Option.some.inj hcontra
      omega

/-- Witness for C8 at the freshly constructed Context `cfgInit` (variant
A, so the triggering request is `request1`). -/
theorem trigger_installs_fresh_witness :
    cfgInit.state = some 0 ∧ cfgInit.heap[0]? = some ⟨Variant.A, some ()⟩ ∧
    (cfgInit.heap[cfgInit.heap.length]? = none ∧
      ∃ cfg', cfgInit.request (trigger Variant.A) = some cfg' ∧
        cfg'.state = some cfgInit.heap.length ∧
        cfg'.heap[cfgInit.heap.length]? = some ⟨otherVariant Variant.A, some ()⟩ ∧
        ∀ j, j < cfgInit.heap.length → cfg'.state ≠ some j) :=
  ⟨rfl, rfl, trigger_installs_fresh cfgInit 0 ⟨Variant.A, some ()⟩ rfl rfl rfl⟩

/-- Claim C9: under normal use nothing fails: construct a Context with any
actual State object, then perform any sequence of `request1`, `request2`
and `transitionTo(new ConcreteStateX())` operations — every operation
succeeds (in particular, no handler ever dereferences an unset
back-reference). -/
theorem no_failure_normal_use (heap : List StateObj) (id : Nat) (obj : StateObj)
    (hh : heap[id]? = some obj) (ops : List Op) :
    ∃ cfg0 cfgN, newContext heap id = some cfg0 ∧ runOps cfg0 ops = some cfgN := by
  have ht := transitionTo_eq { heap := heap, state := none, log := [] } id obj hh
  have hw0 := transitionTo_wf { heap := heap, state := none, log := [] } id _ ht
  obtain ⟨cfgN, hrun, _⟩ := runOps_wf ops _ hw0
  exact ⟨_, cfgN, ht, hrun⟩

/-- Witness for C9: construct with a `ConcreteStateA` object and run both
requests followed by a client-side transition. -/
theorem no_failure_normal_use_witness :
    (([⟨Variant.A, none⟩] : List StateObj)[0]? = some ⟨Variant.A, none⟩) ∧
    ∃ cfg0 cfgN, newContext [⟨Variant.A, none⟩] 0 = some cfg0 ∧
      runOps cfg0 [Op.one, Op.two, Op.transNew Variant.B] = some cfgN :=
  ⟨rfl, no_failure_normal_use [⟨Variant.A, none⟩] 0 ⟨Variant.A, none⟩ rfl
    [Op.one, Op.two, Op.transNew Variant.B]⟩

/-- `Subsystem1` of the Facade example: stateless, so an empty structure. -/
structure Subsystem1 : Type
deriving DecidableEq, Repr

/-- `Subsystem2` of the Facade example. -/
structure Subsystem2 : Type
deriving DecidableEq, Repr

/-- `Subsystem1.operation1()`. -/
def Subsystem1.operation1 (_ : Subsystem1) : String := "Subsystem1: Ready!\n"

/-- `Subsystem1.operationN()`. -/
def Subsystem1.operationN (_ : Subsystem1) : String := "Subsystem1: Go!\n"

/-- `Subsystem2.operation1()`. -/
def Subsystem2.operation1 (_ : Subsystem2) : String := "Subsystem2: Get ready!\n"

/-- `Subsystem2.operationZ()`. -/
def Subsystem2.operationZ (_ : Subsystem2) : String := "Subsystem2: Fire!"

/-- The `Facade` holds one instance of each subsystem. -/
structure Facade : Type where
  subsystem1 : Subsystem1
  subsystem2 : Subsystem2
deriving DecidableEq, Repr

/-- The `Facade` constructor with its optional parameters: a missing
(`undefined`) argument makes the constructor default-create the subsystem
(`subsystem1 || new Subsystem1()`; subsystem objects are always truthy). -/
def Facade.make (s1 : Option Subsystem1) (s2 : Option Subsystem2) : Facade :=
  { subsystem1 := s1.getD {}, subsystem2 := s2.getD {} }

/-- `Facade.operation()`: concatenates the fixed banner lines with the
subsystems' outputs. -/
def Facade.operation (f : Facade) : String :=
  "Facade initializes subsystems:\n" ++
    f.subsystem1.operation1 ++
    f.subsystem2.operation1 ++
    "Facade orders subsystems to perform the action:\n" ++
    f.subsystem1.operationN ++
    f.subsystem2.operationZ

/-- Claim C10: whatever the Facade was constructed with — injected
subsystem instances or none at all — `operation()` returns exactly the
fixed five-line string, so the result is independent of the
configuration. -/
theorem facade_operation_constant (s1 : Option Subsystem1) (s2 : Option Subsystem2) :
    (Facade.make s1 s2).operation =
      "Facade initializes subsystems:\nSubsystem1: Ready!\nSubsystem2: Get ready!\nFacade orders subsystems to perform the action:\nSubsystem1: Go!\nSubsystem2: Fire!" := by
  rfl
